import Mathlib

/-!
Shallow embedding of `make_readme.py`, a script that walks a directory tree,
reads the headers of PSRFITS (`.fits`, `.sf`, `.rf`) and filterbank (`.fil`)
files, aggregates distinct metadata values and writes a text README report.

Modelling conventions:
* Python floats are modelled as exact rationals (`ℚ`).
* Paths are lists of name components; a path is absolute or relative.
* The filesystem is a `World`: existing directories, data-file entries
  (each with its header contents as the external readers would expose them),
  and the text files the script has written.
* `glob.glob(root + '/**/*' + ext, recursive=True)` is modelled by
  `globMatch`: the entry lies under `root`, no component below `root` is
  hidden (glob's `*` and `**` never match names starting with `.`), and the
  basename ends with `ext`.
-/

namespace MakeReadme

/-- Python's whitespace set used by `str.strip()`. -/
def isPyWs (c : Char) : Bool :=
  c = ' ' ∨ c = '\t' ∨ c = '\n' ∨ c = '\r' ∨ c = '\x0b' ∨ c = '\x0c'

/-- Model of Python `str.strip()`: remove leading and trailing whitespace. -/
def pyStrip (s : String) : String :=
  ⟨((s.data.dropWhile isPyWs).reverse.dropWhile isPyWs).reverse⟩

/-- Model of the extension part of `os.path.splitext` on a basename:
the substring from the last `.` on, unless every character before that
dot is itself a dot (leading dots do not start an extension). -/
def extOfChars (cs : List Char) : List Char :=
  match cs.reverse.dropWhile (fun c => c ≠ '.') with
  | [] => []
  | _ :: revBefore =>
    if revBefore.any (fun c => c ≠ '.') then
      '.' :: (cs.reverse.takeWhile (fun c => c ≠ '.')).reverse
    else []

/-- `os.path.splitext(p)[1]` for a basename `s`. -/
def extOf (s : String) : String := ⟨extOfChars s.data⟩

/-- A name is hidden when it starts with a dot; glob's wildcards skip these. -/
def isHidden (s : String) : Bool :=
  match s.data with
  | '.' :: _ => true
  | _ => false

/-- Round to the nearest integer, ties to even (Python's float rounding in
`'{:.2f}'.format`). -/
def roundHalfEven (q : ℚ) : ℤ :=
  let f := q.floor
  let r := q - f
  if r < 1/2 then f
  else if 1/2 < r then f + 1
  else if f % 2 = 0 then f else f + 1

/-- Model of Python `'{:.2f}'.format(q)`: the value rounded (half to even)
to two decimal places, printed with exactly two digits after the point. -/
def format2dp (q : ℚ) : String :=
  let n := roundHalfEven (q * 100)
  let sgn := if n < 0 then "-" else ""
  let a := n.natAbs
  let ip := a / 100
  let fp := a % 100
  sgn ++ toString ip ++ "." ++ (if fp < 10 then "0" ++ toString fp else toString fp)

/-- Decimal digits of the fraction `num/den` (with `num < den`), emitted
until the expansion terminates or the fuel runs out. -/
def fracDigits : ℕ → ℕ → ℕ → String
  | 0, _, _ => ""
  | _ + 1, 0, _ => ""
  | fuel + 1, num, den => toString (num * 10 / den) ++ fracDigits fuel (num * 10 % den) den

/-- Model of Python `str` on a float value (here an exact rational): sign,
integer part, a point, and the fractional digits (`.0` when integral). -/
def pyStr (q : ℚ) : String :=
  let sgn := if q < 0 then "-" else ""
  let a := q.num.natAbs
  let d := q.den
  let fr := a % d
  sgn ++ toString (a / d) ++ "." ++ (if fr = 0 then "0" else fracDigits 17 fr d)

/-- The header fields `pdat.PyPSRFITS(f).hdr` exposes, as read by the script. -/
structure FitsHeader where
  TELESCOP : String
  OBSERVER : String
  PROJID : String
  SRC_NAME : String
  OBS_MODE : String
  STT_IMJD : ℤ
  STT_SMJD : ℚ
  OBSFREQ : ℚ
deriving DecidableEq

/-- The header fields `sigpyproc.readers.FilReader(f).header` exposes,
as read by the script. -/
structure FilHeader where
  telescope : String
  source : String
  tstart : ℚ
  fch1 : ℚ
  foff : ℚ
  nchans : ℤ
deriving DecidableEq

/-- What the external readers would find inside a file: a PSRFITS header,
a filterbank header, or something neither reader accepts. -/
inductive HeaderKind where
  | fits (h : FitsHeader)
  | fil (h : FilHeader)
  | other
deriving DecidableEq

/-- One filesystem entry: its absolute path as components, whether it is a
symbolic link, its byte size, and its header contents. -/
structure FSEntry where
  comps : List String
  isLink : Bool
  sizeBytes : ℕ
  header : HeaderKind
deriving DecidableEq

/-- Basename of an entry (last path component). -/
def base (e : FSEntry) : String := e.comps.getLastD ""

/-- Directory part of an entry's path, as a string. -/
def dirnameStr (e : FSEntry) : String := String.intercalate "/" e.comps.dropLast

/-- The tuple `parse_data` returns for one file. -/
structure Record where
  path : String
  file : String
  ext : String
  size : ℚ
  telescope : String
  observer : String
  project_id : String
  source : String
  mode : String
  MJD : ℚ
  center_freq : ℚ
deriving DecidableEq

/-- `parse_data(data_file)` (lines 98-149): splits the path, takes the size
in decimal GB, and dispatches on the extension: `.fits`/`.sf`/`.rf` are read
with pdat (strip the string fields, `MJD = STT_IMJD + STT_SMJD/(24*60*60)`,
`center_freq = OBSFREQ`); `.fil` is read with sigpyproc (observer, project
and mode are the literal `"Unknown"`, `MJD = tstart`,
`center_freq = fch1 + foff*(nchans - 1)/2`).  `none` models the uncaught
exception (wrong header for the extension, or no branch taken at all) that
aborts the whole run. -/
def parse_data (e : FSEntry) : Option Record :=
  let file := base e
  let ext := extOf file
  let size : ℚ := (e.sizeBytes : ℚ) / 10 ^ 9
  if ext ∈ [".fits", ".sf", ".rf"] then
    match e.header with
    | HeaderKind.fits h =>
      some { path := dirnameStr e, file := file, ext := ext, size := size
             telescope := pyStrip h.TELESCOP
             observer := pyStrip h.OBSERVER
             project_id := pyStrip h.PROJID
             source := pyStrip h.SRC_NAME
             mode := pyStrip h.OBS_MODE
             MJD := (h.STT_IMJD : ℚ) + h.STT_SMJD / (24 * 60 * 60)
             center_freq := h.OBSFREQ }
    | _ => none
  else if ext = ".fil" then
    match e.header with
    | HeaderKind.fil h =>
      some { path := dirnameStr e, file := file, ext := ext, size := size
             telescope := pyStrip h.telescope
             observer := "Unknown"
             project_id := "Unknown"
             source := pyStrip h.source
             mode := "Unknown"
             MJD := h.tstart
             center_freq := h.fch1 + h.foff * ((h.nchans : ℚ) - 1) / 2 }
    | _ => none
  else none

/-- The extension list of line 175. -/
def extensions : List String := [".fits", ".sf", ".rf", ".fil"]

/-- Model of one `glob.glob(root + '/**/*' + ext, recursive=True)` hit:
the entry lies strictly under `root`, every component below `root` is
non-hidden (`**` and `*` skip names starting with `.`), and the basename
ends with `ext`. -/
def globMatch (root : List String) (ext : String) (e : FSEntry) : Bool :=
  root.isPrefixOf e.comps &&
  decide (root.length < e.comps.length) &&
  (e.comps.drop root.length).all (fun c => !(isHidden c)) &&
  ext.data.isSuffixOf (base e).data

/-- Lines 177-179: concatenate the glob hits of the four extensions. -/
def available_files (root : List String) (entries : List FSEntry) : List FSEntry :=
  extensions.foldl (fun acc ext => acc ++ entries.filter (globMatch root ext)) []

/-- The files the scan loop actually hands to `parse_data`: the glob hits
minus the symbolic links (line 209). -/
def processedFiles (root : List String) (entries : List FSEntry) : List FSEntry :=
  (available_files root entries).filter (fun e => !e.isLink)

/-- The accumulators of lines 194-203. -/
structure ScanState where
  n_files : ℕ
  tot_size : ℚ
  exts : List String
  telescopes : List String
  observers : List String
  project_ids : List String
  sources : List String
  modes : List String
  MJDs : List ℚ
  center_freqs : List ℚ
deriving DecidableEq

/-- The initial accumulator values (lines 194-203). -/
def initState : ScanState :=
  { n_files := 0, tot_size := 0, exts := [], telescopes := [], observers := []
    project_ids := [], sources := [], modes := [], MJDs := [], center_freqs := [] }

/-- `if x not in l: l.append(x)` (lines 215-230). -/
def addDistinct [DecidableEq α] (l : List α) (x : α) : List α :=
  if x ∈ l then l else l ++ [x]

/-- Fold one parsed record into the accumulators (lines 213-230). -/
def applyRecord (st : ScanState) (r : Record) : ScanState :=
  { n_files := st.n_files + 1
    tot_size := st.tot_size + r.size
    exts := addDistinct st.exts r.ext
    telescopes := addDistinct st.telescopes r.telescope
    observers := addDistinct st.observers r.observer
    project_ids := addDistinct st.project_ids r.project_id
    sources := addDistinct st.sources r.source
    modes := addDistinct st.modes r.mode
    MJDs := addDistinct st.MJDs r.MJD
    center_freqs := addDistinct st.center_freqs r.center_freq }

/-- One iteration of the scan loop (lines 208-233): symbolic links are
skipped outright; otherwise `parse_data` runs and its failure (`none`)
aborts the whole run. -/
def scanStep (st : ScanState) (e : FSEntry) : Option ScanState :=
  if e.isLink then some st else (parse_data e).map (applyRecord st)

/-- The whole scan loop over the candidate list; `none` when some
candidate's header could not be read (the run dies with no report). -/
def scanFold (es : List FSEntry) (st : ScanState) : Option ScanState :=
  match es with
  | [] => some st
  | e :: rest => (scanStep st e).bind (scanFold rest)

/-- The records the loop parses, in order: links skipped, any parse
failure collapses the whole scan to `none`. -/
def collectRecords : List FSEntry → Option (List Record)
  | [] => some []
  | e :: rest =>
    if e.isLink then collectRecords rest
    else
      match parse_data e, collectRecords rest with
      | some r, some rs => some (r :: rs)
      | _, _ => none

/-- `parse_data` outcome per entry, links removed: the successful scan's
record list. -/
def recordOf (e : FSEntry) : Option Record :=
  if e.isLink then none else parse_data e

/-- Total on-disk bytes of the non-symlink candidates. -/
def sumBytes (es : List FSEntry) : ℕ :=
  ((es.filter (fun e => !e.isLink)).map (fun e => e.sizeBytes)).sum

/-- Python `sorted` on strings: lexicographic order. -/
def pySort (l : List String) : List String :=
  List.insertionSort (fun x y => x ≤ y) l

/-- `', '.join(l)`. -/
def joinCS (l : List String) : String := String.intercalate ", " l

/-- Line 237: the center frequencies as strings. -/
def string_center_freqs (st : ScanState) : List String :=
  st.center_freqs.map pyStr

/-- The report's lines, in the order written (lines 252-267).  The file
ends with an empty line and then a bare `Notes:` line. -/
def reportLines (data_directory progFile owner generator start_timestamp
    end_timestamp : String) (st : ScanState) : List String :=
  [ "README file for " ++ data_directory ++ " generated by " ++ progFile ++ "."
  , "Owner: " ++ owner
  , "Generated by: " ++ generator
  , "Started at " ++ start_timestamp ++ "; completed at " ++ end_timestamp ++ "."
  , "Number of files: " ++ toString st.n_files
  , "Total size (GB): " ++ format2dp st.tot_size
  , "File types: " ++ joinCS (pySort st.exts)
  , "Telescope: " ++ joinCS (pySort st.telescopes)
  , "Observers: " ++ joinCS (pySort st.observers)
  , "Project IDs: " ++ joinCS (pySort st.project_ids)
  , "Sources: " ++ joinCS (pySort st.sources)
  , "Modes: " ++ joinCS (pySort st.modes)
  , "Center frequencies (MHz): " ++ joinCS (pySort (string_center_freqs st))
  , ""
  , "Notes:" ]

/-- The full report text: lines joined by newlines, no trailing newline
after `Notes:`. -/
def reportText (data_directory progFile owner generator start_timestamp
    end_timestamp : String) (st : ScanState) : String :=
  String.intercalate "\n"
    (reportLines data_directory progFile owner generator start_timestamp
      end_timestamp st)

/-- A command-line path: absolute or relative, as name components. -/
inductive PyPath where
  | abs (cs : List String)
  | rel (cs : List String)
deriving DecidableEq

/-- Resolve a path against a current working directory (what `os.chdir`,
`os.path.isdir`, `os.path.abspath` and `open` do with relative paths). -/
def resolvePath : PyPath → List String → List String
  | PyPath.abs cs, _ => cs
  | PyPath.rel cs, cwd => cwd ++ cs

/-- Render a configured path back to the string the script would print. -/
def pathStr : PyPath → String
  | PyPath.abs cs => "/" ++ String.intercalate "/" cs
  | PyPath.rel cs => String.intercalate "/" cs

/-- Python truthiness of an optional path argument (`if args.d:`); the
empty relative path plays the empty string, which is falsy. -/
def pathTruthy : Option PyPath → Bool
  | none => false
  | some (PyPath.rel []) => false
  | some _ => true

/-- Python truthiness of an optional string argument. -/
def strTruthy : Option String → Bool
  | none => false
  | some s => !(s == "")

/-- The parsed command line (lines 57-64): `-d`, `-n`, `-l`, `-o`, `-g`
hold the raw strings (or are absent), `-v` holds the raw string argparse
will coerce with `bool(...)`. -/
structure Args where
  d : Option PyPath
  n : Option String
  l : Option PyPath
  o : Option String
  g : Option String
  v : Option String
deriving DecidableEq

/-- The world the script runs in: the shell's working directory, the
existing directories, the data files, the text files present, plus the
process environment (user name, `__file__`, the answer `input()` would
return, and the two clock readings as formatted timestamps). -/
structure World where
  cwd : List String
  dirs : List (List String)
  entries : List FSEntry
  outFiles : List (List String × String)
  username : String
  progFile : String
  response : String
  startTs : String
  endTs : String
deriving DecidableEq

/-- Lines 63 and 90-96: argparse applies `bool` to the `-v` value (so any
non-empty string becomes `True`), then `if args.v:` takes the truthy
branch, where the membership test `verbose not in [True, False]` guards
the fatal usage error. -/
def resolveVerbose : Option String → Except String Bool
  | none => Except.ok false
  | some s =>
    let b := !(s == "")
    if b then
      if b = true ∨ b = false then Except.ok b
      else Except.error "-v must be True or False!"
    else Except.ok false

/-- Lines 69-72: `-d` or the current working directory. -/
def dataDirOf (a : Args) (w : World) : PyPath :=
  if pathTruthy a.d then a.d.getD (PyPath.rel []) else PyPath.abs w.cwd

/-- Lines 73-76: `-n` or `README.txt`. -/
def outputNameOf (a : Args) : String :=
  if strTruthy a.n then a.n.getD "" else "README.txt"

/-- Lines 77-80: `-l` or the current working directory. -/
def outputDirOf (a : Args) (w : World) : PyPath :=
  if pathTruthy a.l then a.l.getD (PyPath.rel []) else PyPath.abs w.cwd

/-- Lines 81-84: `-o` or `Unknown`. -/
def ownerOf (a : Args) : String :=
  if strTruthy a.o then a.o.getD "" else "Unknown"

/-- Lines 85-89: `-g` or `getpass.getuser()`. -/
def generatorOf (a : Args) (w : World) : String :=
  if strTruthy a.g then a.g.getD "" else w.username

/-- The path the pre-existence guard of lines 160-162 tests:
`os.path.join(output_directory, output_name)` resolved against the
process's initial working directory. -/
def guardPathOf (a : Args) (w : World) : List String :=
  resolvePath (outputDirOf a w) w.cwd ++ [outputNameOf a]

/-- The path `open(output_name, 'w')` on line 252 actually writes: the
output directory resolved against the directory the process chdir'ed
into on line 173 (the data directory), plus the output name. -/
def writePathOf (a : Args) (w : World) : List String :=
  resolvePath (outputDirOf a w) (resolvePath (dataDirOf a w) w.cwd)
    ++ [outputNameOf a]

/-- `os.path.exists`: a report file, a data file, or a directory. -/
def fileExists (w : World) (p : List String) : Bool :=
  w.outFiles.any (fun f => f.1 == p) ||
  w.entries.any (fun e => e.comps == p) ||
  w.dirs.contains p

/-- Writing a text file with `open(_, 'w')`: truncate or create. -/
def setFile (files : List (List String × String)) (p : List String)
    (c : String) : List (List String × String) :=
  files.filter (fun f => !(f.1 == p)) ++ [(p, c)]

/-- Why a run ended with no report written. -/
inductive AbortReason where
  | badVerbose
  | noDataDir
  | noOutputDir
  | outputExists
  | declined
  | readFailed
  | noChdirOut
deriving DecidableEq

/-- One full invocation of the script (module level, lines 57-268):
resolve the options, run the three precondition checks against the
initial working directory, chdir into the data directory, glob
(`os.path.abspath(data_directory)` is taken *after* the chdir), prompt
when more than 1000 candidates were found (only the single character `Y`
proceeds), scan, chdir into the output directory (relative paths now
resolve against the data directory) and write the report.  The returned
world keeps the shell's working directory, since each invocation is its
own process. -/
def run (a : Args) (w : World) : World × Option AbortReason :=
  match resolveVerbose a.v with
  | Except.error _ => (w, some AbortReason.badVerbose)
  | Except.ok _ =>
    if !(w.dirs.contains (resolvePath (dataDirOf a w) w.cwd)) then
      (w, some AbortReason.noDataDir)
    else if !(w.dirs.contains (resolvePath (outputDirOf a w) w.cwd)) then
      (w, some AbortReason.noOutputDir)
    else if fileExists w (guardPathOf a w) then
      (w, some AbortReason.outputExists)
    else
      let cwd1 := resolvePath (dataDirOf a w) w.cwd
      let afs := available_files (resolvePath (dataDirOf a w) cwd1) w.entries
      if decide (afs.length > 1000) && !(w.response == "Y") then
        (w, some AbortReason.declined)
      else
        match scanFold afs initState with
        | none => (w, some AbortReason.readFailed)
        | some st =>
          if !(w.dirs.contains (resolvePath (outputDirOf a w) cwd1)) then
            (w, some AbortReason.noChdirOut)
          else
            let text := reportText (pathStr (dataDirOf a w)) w.progFile
              (ownerOf a) (generatorOf a w) w.startTs w.endTs st
            ({ w with outFiles := setFile w.outFiles (writePathOf a w) text },
              none)

/-- The world a successful invocation leaves behind: the same world with
the report written at `writePathOf` (identical to `run`'s success branch). -/
def successWorld (a : Args) (w : World) (st : ScanState) : World :=
  let text := reportText (pathStr (dataDirOf a w)) w.progFile
    (ownerOf a) (generatorOf a w) w.startTs w.endTs st
  { w with outFiles := setFile w.outFiles (writePathOf a w) text }

/-! Concrete inputs used to instantiate the theorems below. -/

/-- A PSRFITS header with whitespace around several fields. -/
def cFitsHeader : FitsHeader :=
  { TELESCOP := " GBT ", OBSERVER := " Smith", PROJID := "P001"
    SRC_NAME := " J0000+00 ", OBS_MODE := "SRCH"
    STT_IMJD := 59000, STT_SMJD := 43200, OBSFREQ := 1400 }

/-- A 2 GB `.fits` file directly under the data directory. -/
def cFitsEnt : FSEntry :=
  { comps := ["data", "a.fits"], isLink := false, sizeBytes := 2000000000
    header := HeaderKind.fits cFitsHeader }

/-- A filterbank header with descending channel order. -/
def cFilHeader : FilHeader :=
  { telescope := "Arecibo", source := "J0001+01", tstart := 59001
    fch1 := 1500, foff := -1, nchans := 100 }

/-- A 0.5 GB `.fil` file in a subdirectory. -/
def cFilEnt : FSEntry :=
  { comps := ["data", "sub", "b.fil"], isLink := false, sizeBytes := 500000000
    header := HeaderKind.fil cFilHeader }

/-- A two-file scan: one PSRFITS file, one filterbank file. -/
def cScanEntries : List FSEntry := [cFitsEnt, cFilEnt]

/-- A hidden file whose `os.path.splitext` extension is `.fits`. -/
def cHiddenEnt : FSEntry :=
  { comps := ["r", ".h.fits"], isLink := false, sizeBytes := 5
    header := HeaderKind.fits cFitsHeader }

/-- A symbolic link to a data file. -/
def cLinkEnt : FSEntry :=
  { comps := ["r", "c.fil"], isLink := true, sizeBytes := 7
    header := HeaderKind.fil cFilHeader }

/-- An ascending-order filterbank band: first channel 1000, width 2,
5 channels. -/
def cFilHeaderAsc : FilHeader :=
  { telescope := "GBT", source := "J2", tstart := 59002
    fch1 := 1000, foff := 2, nchans := 5 }

/-- The same band with descending channel order: first channel 1008,
width -2, 5 channels. -/
def cFilHeaderDesc : FilHeader :=
  { telescope := "GBT", source := "J2", tstart := 59002
    fch1 := 1008, foff := -2, nchans := 5 }

/-- An entry carrying the ascending-order band. -/
def cFilEntAsc : FSEntry :=
  { comps := ["r", "asc.fil"], isLink := false, sizeBytes := 10
    header := HeaderKind.fil cFilHeaderAsc }

/-- An entry carrying the descending-order band. -/
def cFilEntDesc : FSEntry :=
  { comps := ["r", "desc.fil"], isLink := false, sizeBytes := 10
    header := HeaderKind.fil cFilHeaderDesc }

/-- `-d /d -l o` (absolute data directory, relative output directory). -/
def cArgsRel : Args :=
  { d := some (PyPath.abs ["d"]), n := none, l := some (PyPath.rel ["o"])
    o := none, g := none, v := none }

/-- Shell in `/w`; `/d`, `/w/o` and `/d/o` all exist; no data files. -/
def cWorldRel : World :=
  { cwd := ["w"], dirs := [["w"], ["d"], ["w", "o"], ["d", "o"]], entries := []
    outFiles := [], username := "user", progFile := "make_readme.py"
    response := "N", startTs := "t1", endTs := "t2" }

/-- `-d /d -l /out` (both directories absolute). -/
def cArgsAbs : Args :=
  { d := some (PyPath.abs ["d"]), n := none, l := some (PyPath.abs ["out"])
    o := none, g := none, v := none }

/-- Shell in `/w`; `/d` and `/out` exist; no data files. -/
def cWorldAbs : World :=
  { cwd := ["w"], dirs := [["w"], ["d"], ["out"]], entries := []
    outFiles := [], username := "user", progFile := "make_readme.py"
    response := "N", startTs := "t1", endTs := "t2" }

/-- `-v banana`: a verbosity value that is neither `True` nor `False`. -/
def cArgsBad : Args :=
  { d := none, n := none, l := none, o := none, g := none, v := some "banana" }

/-- A minimal world in which the defaults all point at the shell's own
directory. -/
def cWorldBad : World :=
  { cwd := ["w"], dirs := [["w"]], entries := []
    outFiles := [], username := "user", progFile := "make_readme.py"
    response := "N", startTs := "t1", endTs := "t2" }

/-- `-d /nope`: a data directory that does not exist. -/
def cArgsMissing : Args :=
  { d := some (PyPath.abs ["nope"]), n := none, l := none, o := none
    g := none, v := none }

end MakeReadme

namespace MakeReadme

theorem takeWhile_append_of_all {α} (p : α → Bool) (xs ys : List α)
    (h : ∀ x ∈ xs, p x = true) :
    (xs ++ ys).takeWhile p = xs ++ ys.takeWhile p := by
  induction xs with
  | nil => simp
  | cons x t ih =>
    simp only [List.cons_append, List.takeWhile_cons, h x (by simp), if_true]
    rw [ih (fun y hy => h y (by simp [hy]))]

theorem dropWhile_append_of_all {α} (p : α → Bool) (xs ys : List α)
    (h : ∀ x ∈ xs, p x = true) :
    (xs ++ ys).dropWhile p = ys.dropWhile p := by
  induction xs with
  | nil => simp
  | cons x t ih =>
    simp only [List.cons_append, List.dropWhile_cons, h x (by simp), if_true]
    exact ih (fun y hy => h y (by simp [hy]))

/-- When a basename is a non-dot character, anything, a dot and a dot-free
tail, `os.path.splitext` finds exactly that tail as the extension. -/
theorem extOfChars_append (c : Char) (pre r : List Char) (hc : c ≠ '.')
    (hr : '.' ∉ r) : extOfChars (c :: pre ++ '.' :: r) = '.' :: r := by
  have hrev : (c :: pre ++ '.' :: r).reverse
      = r.reverse ++ '.' :: (pre.reverse ++ [c]) := by
    simp
  have hall : ∀ x ∈ r.reverse, (fun c => decide (c ≠ '.')) x = true := by
    intro x hx
    simp only [decide_eq_true_eq]
    intro hx'
    exact hr (hx' ▸ List.mem_reverse.mp hx)
  have hdot : (fun c => decide (c ≠ '.')) '.' = false := by simp
  have hany : (pre.reverse ++ [c]).any (fun c => decide (c ≠ '.')) = true :=
    List.any_eq_true.mpr ⟨c, by simp, by simp [hc]⟩
  simp only [extOfChars, hrev, dropWhile_append_of_all _ _ _ hall,
    takeWhile_append_of_all _ _ _ hall, List.dropWhile_cons, List.takeWhile_cons,
    hdot, Bool.false_eq_true, if_false, hany, if_true, List.append_nil,
    List.reverse_reverse]

theorem dropWhile_head_false {α} (p : α → Bool) (l : List α) (d : α)
    (t : List α) (h : l.dropWhile p = d :: t) : p d = false := by
  induction l with
  | nil => simp at h
  | cons x xs ih =>
    rw [List.dropWhile_cons] at h
    by_cases hx : p x = true
    · exact ih (by simpa [hx] using h)
    · rw [if_neg hx] at h
      cases h
      simpa using hx

/-- The extension `os.path.splitext` computes is a suffix of the name. -/
theorem extOfChars_suffix (cs : List Char) : extOfChars cs <:+ cs := by
  rcases hdw : cs.reverse.dropWhile (fun c => c ≠ '.') with _ | ⟨d, revBefore⟩
  · simp only [extOfChars, hdw]
    exact List.nil_suffix
  · by_cases hany : revBefore.any (fun c => decide (c ≠ '.')) = true
    · simp only [extOfChars, hdw, hany, if_true]
      have hd : d = '.' := by
        have := dropWhile_head_false _ _ _ _ hdw
        simpa using this
      refine ⟨revBefore.reverse, ?_⟩
      have hsplit := List.takeWhile_append_dropWhile
        (fun c => decide (c ≠ '.')) cs.reverse
      rw [hdw] at hsplit
      have hcs : cs = (cs.reverse).reverse := by simp
      conv_rhs => rw [hcs, ← hsplit]
      simp [hd]
    · simp only [extOfChars, hdw, hany, if_false]
      exact List.nil_suffix

/-- The characters of each scanned extension, for case analysis. -/
theorem extensions_shape :
    ∀ x ∈ extensions, ∃ r, x.data = '.' :: r ∧ '.' ∉ r ∧ r ≠ [] := by
  intro x hx
  simp only [extensions, List.mem_cons, List.not_mem_nil, or_false] at hx
  rcases hx with h | h | h | h <;> subst h
  · exact ⟨['f', 'i', 't', 's'], rfl, by decide, by decide⟩
  · exact ⟨['s', 'f'], rfl, by decide, by decide⟩
  · exact ⟨['r', 'f'], rfl, by decide, by decide⟩
  · exact ⟨['f', 'i', 'l'], rfl, by decide, by decide⟩

/-- For a non-hidden basename, ending in one of the four extensions is the
same as `os.path.splitext` giving exactly that extension. -/
theorem extOf_eq_of_suffix (x b : String) (hx : x ∈ extensions)
    (hh : isHidden b = false) (hs : x.data <:+ b.data) : extOf b = x := by
  obtain ⟨r, hxr, hrnd, -⟩ := extensions_shape x hx
  obtain ⟨t, ht⟩ := hs
  rw [hxr] at ht
  cases t with
  | nil =>
    exfalso
    simp only [List.nil_append] at ht
    rw [isHidden, ← ht] at hh
    simp at hh
  | cons c t' =>
    have hc : c ≠ '.' := by
      intro hcc
      subst hcc
      rw [isHidden, ← ht] at hh
      simp at hh
    have hchars : extOfChars b.data = '.' :: r := by
      rw [← ht]
      exact extOfChars_append c t' r hc hrnd
    have hdata : (extOf b).data = x.data := by
      simp only [extOf, hchars, hxr]
    cases b
    cases x
    exact congrArg String.mk hdata

/-- Conversely, the computed extension is always a suffix of the name. -/
theorem extOf_suffix (b : String) : (extOf b).data <:+ b.data :=
  extOfChars_suffix b.data

theorem mem_foldl_append {α β} (f : α → List β) (l : List α) (acc : List β)
    (b : β) :
    b ∈ l.foldl (fun a x => a ++ f x) acc ↔ b ∈ acc ∨ ∃ x ∈ l, b ∈ f x := by
  induction l generalizing acc with
  | nil => simp
  | cons x t ih =>
    rw [List.foldl_cons, ih]
    simp only [List.mem_append, List.mem_cons]
    constructor
    · rintro ((h | h) | ⟨y, hy, hb⟩)
      · exact Or.inl h
      · exact Or.inr ⟨x, Or.inl rfl, h⟩
      · exact Or.inr ⟨y, Or.inr hy, hb⟩
    · rintro (h | ⟨y, (rfl | hy), hb⟩)
      · exact Or.inl (Or.inl h)
      · exact Or.inl (Or.inr hb)
      · exact Or.inr ⟨y, hy, hb⟩

theorem mem_available_files (root : List String) (entries : List FSEntry)
    (e : FSEntry) :
    e ∈ available_files root entries ↔
      e ∈ entries ∧ ∃ x ∈ extensions, globMatch root x e = true := by
  rw [available_files, mem_foldl_append]
  simp only [List.not_mem_nil, false_or, List.mem_filter]
  constructor
  · rintro ⟨x, hx, he, hg⟩
    exact ⟨he, x, hx, hg⟩
  · rintro ⟨he, x, hx, hg⟩
    exact ⟨x, hx, he, hg⟩

theorem getLastD_mem {α} (l : List α) (d : α) (h : l ≠ []) : l.getLastD d ∈ l := by
  induction l with
  | nil => exact absurd rfl h
  | cons x t ih =>
    cases t with
    | nil => simp
    | cons y t' => simpa using Or.inr (ih (by simp))

theorem getLastD_drop {α} (l : List α) (n : ℕ) (d : α) (h : l.drop n ≠ []) :
    (l.drop n).getLastD d = l.getLastD d := by
  induction l generalizing n with
  | nil => simp at h
  | cons x t ih =>
    cases n with
    | zero => rfl
    | succ m =>
      rw [List.drop_succ_cons] at h ⊢
      rw [ih m h]
      have ht : t ≠ [] := by
        intro he
        rw [he] at h
        simp at h
      cases t with
      | nil => exact absurd rfl ht
      | cons y t' => rfl

/-- Unfolding of the glob test into its four conjuncts. -/
theorem globMatch_iff (root : List String) (x : String) (e : FSEntry) :
    globMatch root x e = true ↔
      root <+: e.comps ∧ root.length < e.comps.length ∧
      (∀ c ∈ e.comps.drop root.length, isHidden c = false) ∧
      x.data <:+ (base e).data := by
  simp only [globMatch, Bool.and_eq_true, List.isPrefixOf_iff_prefix,
    decide_eq_true_eq, List.all_eq_true, Bool.not_eq_true',
    List.isSuffixOf_iff_suffix, and_assoc]

/-- Below a given root, the basename of a matched entry is one of the
components glob inspected, hence non-hidden. -/
theorem base_mem_drop (root : List String) (e : FSEntry)
    (h : root.length < e.comps.length) :
    base e ∈ e.comps.drop root.length := by
  have hne : e.comps.drop root.length ≠ [] := by
    intro hd
    have := congrArg List.length hd
    simp at this
    omega
  have := getLastD_drop e.comps root.length "" hne
  rw [base, ← this]
  exact getLastD_mem _ _ hne

/-- Membership in the processed list, fully unfolded: an entry reaches
`parse_data` exactly when it is a non-symlink entry strictly under the
root, every component below the root is non-hidden, and its
`os.path.splitext` extension is one of the four scanned ones. -/
theorem mem_processedFiles (root : List String) (entries : List FSEntry)
    (e : FSEntry) :
    e ∈ processedFiles root entries ↔
      e ∈ entries ∧ e.isLink = false ∧ root <+: e.comps ∧
      root.length < e.comps.length ∧
      (∀ c ∈ e.comps.drop root.length, isHidden c = false) ∧
      extOf (base e) ∈ extensions := by
  rw [processedFiles, List.mem_filter, mem_available_files]
  simp only [Bool.not_eq_true']
  constructor
  · rintro ⟨⟨he, x, hx, hg⟩, hl⟩
    rw [globMatch_iff] at hg
    obtain ⟨hp, hlen, hhid, hsuf⟩ := hg
    have hbase : isHidden (base e) = false :=
      hhid _ (base_mem_drop root e hlen)
    exact ⟨he, hl, hp, hlen, hhid,
      (extOf_eq_of_suffix x (base e) hx hbase hsuf) ▸ hx⟩
  · rintro ⟨he, hl, hp, hlen, hhid, hext⟩
    refine ⟨⟨he, extOf (base e), hext, ?_⟩, hl⟩
    rw [globMatch_iff]
    exact ⟨hp, hlen, hhid, extOf_suffix (base e)⟩

/-- The scan loop is the fold of the parsed records, when every candidate
header is readable. -/
theorem scanFold_eq (es : List FSEntry) (st : ScanState) :
    scanFold es st = (collectRecords es).map (fun rs => rs.foldl applyRecord st) := by
  induction es generalizing st with
  | nil => rfl
  | cons e rest ih =>
    rw [scanFold, collectRecords, scanStep]
    by_cases hl : e.isLink
    · simp only [hl, if_true, Option.some_bind]
      exact ih st
    · have hl' : e.isLink = false := by simpa using hl
      simp only [hl', Bool.false_eq_true, if_false]
      cases hp : parse_data e with
      | none => simp
      | some r =>
        simp only [Option.map_some', Option.some_bind]
        rw [ih (applyRecord st r)]
        cases collectRecords rest with
        | none => rfl
        | some rs => simp

theorem collectRecords_filterMap (es : List FSEntry) (rs : List Record)
    (h : collectRecords es = some rs) : rs = es.filterMap recordOf := by
  induction es generalizing rs with
  | nil =>
    rw [collectRecords] at h
    cases h
    rfl
  | cons e rest ih =>
    rw [collectRecords] at h
    by_cases hl : e.isLink
    · rw [if_pos hl] at h
      rw [List.filterMap_cons, recordOf, if_pos hl, ← ih rs h]
    · rw [if_neg hl] at h
      rcases hp : parse_data e with _ | r
      · rw [hp] at h
        simp at h
      · rw [hp] at h
        rcases hc : collectRecords rest with _ | rs'
        · rw [hc] at h
          simp at h
        · rw [hc] at h
          cases h
          rw [List.filterMap_cons, recordOf, if_neg hl, hp, ← ih rs' hc]

theorem collectRecords_isSome (es : List FSEntry) :
    (collectRecords es).isSome = true ↔
      ∀ e ∈ es, e.isLink = false → (parse_data e).isSome = true := by
  induction es with
  | nil => simp [collectRecords]
  | cons e rest ih =>
    rw [collectRecords]
    simp only [List.mem_cons, forall_eq_or_imp]
    by_cases hl : e.isLink
    · rw [if_pos hl, ih]
      have hvac : e.isLink = false → (parse_data e).isSome = true := by
        intro hfl
        rw [hl] at hfl
        cases hfl
      exact ⟨fun h => ⟨hvac, h⟩, fun h => h.2⟩
    · have hl' : e.isLink = false := by simpa using hl
      rw [if_neg hl]
      cases hp : parse_data e with
      | none =>
        constructor
        · intro h
          exfalso
          cases hc : collectRecords rest <;> rw [hc] at h <;> simp at h
        · intro h
          have := h.1 hl'
          simp at this
      | some r =>
        cases hc : collectRecords rest with
        | none =>
          constructor
          · intro h
            simp at h
          · intro h
            have : (collectRecords rest).isSome = true := ih.mpr h.2
            rw [hc] at this
            simp at this
        | some rs =>
          constructor
          · intro _
            exact ⟨fun _ => by simp [hp], ih.mp (by simp [hc])⟩
          · intro _
            simp

theorem collectRecords_perm (es es2 : List FSEntry) (rs : List Record)
    (hp : es.Perm es2) (h : collectRecords es = some rs) :
    ∃ rs2, collectRecords es2 = some rs2 ∧ rs.Perm rs2 := by
  have h2 : (collectRecords es2).isSome = true := by
    rw [collectRecords_isSome]
    intro e he
    exact (collectRecords_isSome es).mp (by simp [h]) e (hp.mem_iff.mpr he)
  rcases hc2 : collectRecords es2 with _ | rs2
  · rw [hc2] at h2
    simp at h2
  · refine ⟨rs2, rfl, ?_⟩
    rw [collectRecords_filterMap es rs h, collectRecords_filterMap es2 rs2 hc2]
    exact hp.filterMap recordOf

theorem mem_addDistinct {α} [DecidableEq α] (l : List α) (x y : α) :
    y ∈ addDistinct l x ↔ y ∈ l ∨ y = x := by
  rw [addDistinct]
  by_cases hx : x ∈ l
  · rw [if_pos hx]
    constructor
    · exact Or.inl
    · rintro (h | rfl)
      · exact h
      · exact hx
  · rw [if_neg hx]
    simp

theorem nodup_addDistinct {α} [DecidableEq α] (l : List α) (x : α)
    (h : l.Nodup) : (addDistinct l x).Nodup := by
  rw [addDistinct]
  by_cases hx : x ∈ l
  · rwa [if_pos hx]
  · rw [if_neg hx]
    refine h.append (List.nodup_singleton x) ?_
    intro a ha hax
    rw [List.mem_singleton] at hax
    exact hx (hax ▸ ha)

theorem mem_foldl_addDistinct {α} [DecidableEq α] (xs l : List α) (y : α) :
    y ∈ xs.foldl addDistinct l ↔ y ∈ l ∨ y ∈ xs := by
  induction xs generalizing l with
  | nil => simp
  | cons x t ih =>
    rw [List.foldl_cons, ih, mem_addDistinct]
    simp only [List.mem_cons]
    tauto

theorem nodup_foldl_addDistinct {α} [DecidableEq α] (xs l : List α)
    (h : l.Nodup) : (xs.foldl addDistinct l).Nodup := by
  induction xs generalizing l with
  | nil => exact h
  | cons x t ih => exact ih _ (nodup_addDistinct l x h)

theorem perm_foldl_addDistinct {α} [DecidableEq α] (xs ys : List α)
    (h : xs.Perm ys) :
    (xs.foldl addDistinct []).Perm (ys.foldl addDistinct []) := by
  refine List.perm_of_nodup_nodup_toFinset_eq
    (nodup_foldl_addDistinct xs [] List.nodup_nil)
    (nodup_foldl_addDistinct ys [] List.nodup_nil) ?_
  ext a
  simp only [List.mem_toFinset, mem_foldl_addDistinct, List.not_mem_nil,
    false_or]
  exact h.mem_iff

theorem length_foldl_addDistinct {α} [DecidableEq α] (xs : List α) :
    (xs.foldl addDistinct []).length = xs.dedup.length := by
  have hperm : (xs.foldl addDistinct []).Perm xs.dedup := by
    refine List.perm_of_nodup_nodup_toFinset_eq
      (nodup_foldl_addDistinct xs [] List.nodup_nil) xs.nodup_dedup ?_
    ext a
    simp [mem_foldl_addDistinct, List.mem_dedup]
  exact hperm.length_eq

theorem foldl_applyRecord_list {α} [DecidableEq α] (get : ScanState → List α)
    (proj : Record → α)
    (hstep : ∀ st r, get (applyRecord st r) = addDistinct (get st) (proj r))
    (rs : List Record) (st : ScanState) :
    get (rs.foldl applyRecord st) = (rs.map proj).foldl addDistinct (get st) := by
  induction rs generalizing st with
  | nil => rfl
  | cons r t ih =>
    rw [List.foldl_cons, List.map_cons, List.foldl_cons, ih, hstep]

theorem foldl_applyRecord_n_files (rs : List Record) (st : ScanState) :
    (rs.foldl applyRecord st).n_files = st.n_files + rs.length := by
  induction rs generalizing st with
  | nil => simp
  | cons r t ih =>
    rw [List.foldl_cons, ih]
    simp [applyRecord]
    omega

theorem foldl_applyRecord_tot_size (rs : List Record) (st : ScanState) :
    (rs.foldl applyRecord st).tot_size = st.tot_size + (rs.map Record.size).sum := by
  induction rs generalizing st with
  | nil => simp
  | cons r t ih =>
    rw [List.foldl_cons, ih]
    simp only [applyRecord, List.map_cons, List.sum_cons]
    ring

theorem pySort_sorted (l : List String) : List.Sorted (· ≤ ·) (pySort l) :=
  List.sorted_insertionSort _ l

theorem pySort_perm (l : List String) : (pySort l).Perm l :=
  List.perm_insertionSort _ l

theorem pySort_eq_of_perm (l l' : List String) (h : l.Perm l') :
    pySort l = pySort l' :=
  List.eq_of_perm_of_sorted ((pySort_perm l).trans (h.trans (pySort_perm l').symm))
    (pySort_sorted l) (pySort_sorted l')

/-- What `parse_data` returns on a PSRFITS-family extension when pdat
exposes the header `h`. -/
theorem parse_data_fits (e : FSEntry) (h : FitsHeader)
    (hh : e.header = HeaderKind.fits h)
    (hext : extOf (base e) ∈ [".fits", ".sf", ".rf"]) :
    parse_data e = some
      { path := dirnameStr e, file := base e, ext := extOf (base e)
        size := (e.sizeBytes : ℚ) / 10 ^ 9
        telescope := pyStrip h.TELESCOP
        observer := pyStrip h.OBSERVER
        project_id := pyStrip h.PROJID
        source := pyStrip h.SRC_NAME
        mode := pyStrip h.OBS_MODE
        MJD := (h.STT_IMJD : ℚ) + h.STT_SMJD / (24 * 60 * 60)
        center_freq := h.OBSFREQ } := by
  simp only [parse_data, hh]
  rw [if_pos hext]

/-- What `parse_data` returns on a `.fil` extension when sigpyproc exposes
the header `h`. -/
theorem parse_data_fil (e : FSEntry) (h : FilHeader)
    (hh : e.header = HeaderKind.fil h)
    (hext : extOf (base e) = ".fil") :
    parse_data e = some
      { path := dirnameStr e, file := base e, ext := extOf (base e)
        size := (e.sizeBytes : ℚ) / 10 ^ 9
        telescope := pyStrip h.telescope
        observer := "Unknown"
        project_id := "Unknown"
        source := pyStrip h.source
        mode := "Unknown"
        MJD := h.tstart
        center_freq := h.fch1 + h.foff * ((h.nchans : ℚ) - 1) / 2 } := by
  have hnot : extOf (base e) ∉ [".fits", ".sf", ".rf"] := by
    rw [hext]
    decide
  simp only [parse_data, hh]
  rw [if_neg hnot, if_pos hext]

/-- Whatever branch produced the record, its size field is the byte size
divided by the decimal gigabyte. -/
theorem parse_data_size (e : FSEntry) (r : Record)
    (h : parse_data e = some r) : r.size = (e.sizeBytes : ℚ) / 10 ^ 9 := by
  simp only [parse_data] at h
  split at h
  · split at h
    · cases h
      rfl
    · cases h
  · split at h
    · split at h
      · cases h
        rfl
      · cases h
    · cases h

/-- Per-file division distributes over the byte sum. -/
theorem collectRecords_sum_size (es : List FSEntry) (rs : List Record)
    (h : collectRecords es = some rs) :
    (rs.map Record.size).sum = (sumBytes es : ℚ) / 10 ^ 9 := by
  induction es generalizing rs with
  | nil =>
    rw [collectRecords] at h
    cases h
    simp [sumBytes]
  | cons e rest ih =>
    rw [collectRecords] at h
    by_cases hl : e.isLink
    · rw [if_pos hl] at h
      rw [ih rs h, sumBytes, sumBytes, List.filter_cons]
      simp [hl]
    · have hl' : e.isLink = false := by simpa using hl
      rw [if_neg hl] at h
      cases hp : parse_data e with
      | none =>
        rw [hp] at h
        simp at h
      | some r =>
        rw [hp] at h
        cases hc : collectRecords rest with
        | none =>
          rw [hc] at h
          simp at h
        | some rs' =>
          rw [hc] at h
          cases h
          rw [List.map_cons, List.sum_cons, ih rs' hc, parse_data_size e r hp]
          rw [sumBytes, sumBytes, List.filter_cons]
          simp only [hl', Bool.not_false, if_true, List.map_cons, List.sum_cons]
          push_cast
          rw [add_div]

theorem run_cases (a : Args) (w : World) :
    (run a w).1 = w ∨ (run a w).2 = none := by
  simp only [run]
  cases resolveVerbose a.v with
  | error msg => exact Or.inl rfl
  | ok vb =>
    repeat' split
    all_goals first | exact Or.inl rfl | exact Or.inr rfl

/-- Every aborted invocation leaves the world exactly as it found it. -/
theorem run_abort_world (a : Args) (w : World)
    (h : ((run a w).2).isSome = true) : (run a w).1 = w := by
  rcases run_cases a w with hc | hc
  · exact hc
  · rw [hc] at h
    cases h

/-- Anatomy of a successful invocation: the precondition checks passed,
the output-collision guard found nothing at `guardPathOf`, and the report
was written at `writePathOf`. -/
theorem run_success (a : Args) (w w1 : World) (h : run a w = (w1, none)) :
    ∃ vb st,
      resolveVerbose a.v = Except.ok vb ∧
      w.dirs.contains (resolvePath (dataDirOf a w) w.cwd) = true ∧
      w.dirs.contains (resolvePath (outputDirOf a w) w.cwd) = true ∧
      fileExists w (guardPathOf a w) = false ∧
      w.dirs.contains
        (resolvePath (outputDirOf a w) (resolvePath (dataDirOf a w) w.cwd)) = true ∧
      w1 = successWorld a w st := by
  cases hv : resolveVerbose a.v with
  | error msg =>
    simp only [run, hv] at h
    simp at h
  | ok vb =>
    simp only [run, hv] at h
    refine ⟨vb, ?_⟩
    split at h
    next hc1 => simp at h
    next hc1 =>
      split at h
      next hc2 => simp at h
      next hc2 =>
        split at h
        next hc3 => simp at h
        next hc3 =>
          split at h
          next hc4 => simp at h
          next hc4 =>
            split at h
            next hsc => simp at h
            next st hsc =>
              split at h
              next hc5 => simp at h
              next hc5 =>
                obtain ⟨hw1, -⟩ := Prod.mk.injEq _ _ _ _ |>.mp h
                refine ⟨st, rfl, ?_, ?_, ?_, ?_, hw1.symm⟩
                · simpa using hc1
                · simpa using hc2
                · simpa using hc3
                · simpa using hc5

theorem any_setFile (fs : List (List String × String)) (p : List String)
    (c : String) : (setFile fs p c).any (fun f => f.1 == p) = true := by
  simp [setFile]

theorem dataDirOf_successWorld (a a' : Args) (w : World) (st : ScanState) :
    dataDirOf a' (successWorld a w st) = dataDirOf a' w := rfl

theorem outputDirOf_successWorld (a a' : Args) (w : World) (st : ScanState) :
    outputDirOf a' (successWorld a w st) = outputDirOf a' w := rfl

theorem guardPathOf_successWorld (a a' : Args) (w : World) (st : ScanState) :
    guardPathOf a' (successWorld a w st) = guardPathOf a' w := rfl

theorem dirs_successWorld (a : Args) (w : World) (st : ScanState) :
    (successWorld a w st).dirs = w.dirs := rfl

theorem cwd_successWorld (a : Args) (w : World) (st : ScanState) :
    (successWorld a w st).cwd = w.cwd := rfl

theorem fileExists_successWorld (a : Args) (w : World) (st : ScanState) :
    fileExists (successWorld a w st) (writePathOf a w) = true := by
  rw [successWorld, fileExists]
  dsimp only
  rw [any_setFile]
  rfl

/-- When the guard path and the write path agree, a second identical
invocation hits the collision guard and changes nothing. -/
theorem run_twice_aborts (a : Args) (w w1 : World) (h : run a w = (w1, none))
    (hsame : guardPathOf a w = writePathOf a w) :
    run a w1 = (w1, some AbortReason.outputExists) := by
  obtain ⟨vb, st, hv, h1, h2, hfe, h5, hw1⟩ := run_success a w w1 h
  subst hw1
  simp only [run, hv, dataDirOf_successWorld, outputDirOf_successWorld,
    guardPathOf_successWorld, dirs_successWorld, cwd_successWorld]
  simp only [h1, h2, Bool.not_true, Bool.false_eq_true, if_false]
  rw [hsame, fileExists_successWorld]
  simp

/-- An absolute output directory, or a data directory that resolves to the
initial working directory, makes the guard and write paths coincide. -/
theorem guardPath_eq_writePath (a : Args) (w : World)
    (h : (∃ cs, outputDirOf a w = PyPath.abs cs) ∨
         resolvePath (dataDirOf a w) w.cwd = w.cwd) :
    guardPathOf a w = writePathOf a w := by
  rcases h with ⟨cs, hcs⟩ | hc
  · rw [guardPathOf, writePathOf, hcs]
    rfl
  · rw [guardPathOf, writePathOf, hc]

/-- A successful scan from the empty accumulators is the fold of the
parsed records. -/
theorem scanFold_some (es : List FSEntry) (st : ScanState)
    (h : scanFold es initState = some st) :
    ∃ rs, collectRecords es = some rs ∧ st = rs.foldl applyRecord initState := by
  rw [scanFold_eq] at h
  cases hc : collectRecords es with
  | none =>
    rw [hc] at h
    cases h
  | some rs =>
    rw [hc] at h
    cases h
    exact ⟨rs, rfl, rfl⟩

/-- C1 (counterexample): the hidden file `r/.h.fits` is a non-symlink file
under the root `r` whose `os.path.splitext` extension is `.fits`, yet the
scanner never enumerates it (glob's `*` skips names starting with a dot),
so the scan does not process exactly the claimed set. -/
theorem c1_counterexample :
    processedFiles ["r"] [cHiddenEnt] = [] ∧
    available_files ["r"] [cHiddenEnt] = [] ∧
    cHiddenEnt.isLink = false ∧
    ["r"] <+: cHiddenEnt.comps ∧
    extOf (base cHiddenEnt) ∈ extensions := by
  refine ⟨by decide, by decide, rfl, ⟨[".h.fits"], rfl⟩, by decide⟩

/-- C1 (amended): the files handed to the extractor are exactly the
non-symlink entries strictly under the root, with no hidden component
below the root, whose extension is one of `.fits`, `.sf`, `.rf`, `.fil`;
in particular every path passed to the extractor has its extension in
that set. -/
theorem c1_scan_enumeration (root : List String) (entries : List FSEntry)
    (e : FSEntry) :
    e ∈ processedFiles root entries ↔
      e ∈ entries ∧ e.isLink = false ∧ root <+: e.comps ∧
      root.length < e.comps.length ∧
      (∀ c ∈ e.comps.drop root.length, isHidden c = false) ∧
      extOf (base e) ∈ extensions :=
  mem_processedFiles root entries e

/-- C4: on `.fits`/`.sf`/`.rf` the extractor returns the header's string
fields with surrounding whitespace stripped and epoch
`STT_IMJD + STT_SMJD/86400`; on `.fil` it returns the literal `"Unknown"`
for observer, project ID and mode, and epoch `tstart`. -/
theorem c4_extractor_fields :
    (∀ e h, e.header = HeaderKind.fits h →
      extOf (base e) ∈ [".fits", ".sf", ".rf"] →
      ∃ r, parse_data e = some r ∧
        r.telescope = pyStrip h.TELESCOP ∧
        r.observer = pyStrip h.OBSERVER ∧
        r.project_id = pyStrip h.PROJID ∧
        r.source = pyStrip h.SRC_NAME ∧
        r.mode = pyStrip h.OBS_MODE ∧
        r.MJD = (h.STT_IMJD : ℚ) + h.STT_SMJD / 86400) ∧
    (∀ e h, e.header = HeaderKind.fil h →
      extOf (base e) = ".fil" →
      ∃ r, parse_data e = some r ∧
        r.telescope = pyStrip h.telescope ∧
        r.observer = "Unknown" ∧
        r.project_id = "Unknown" ∧
        r.source = pyStrip h.source ∧
        r.mode = "Unknown" ∧
        r.MJD = h.tstart) := by
  constructor
  · intro e h hh hext
    refine ⟨_, parse_data_fits e h hh hext, rfl, rfl, rfl, rfl, rfl, ?_⟩
    norm_num
  · intro e h hh hext
    exact ⟨_, parse_data_fil e h hh hext, rfl, rfl, rfl, rfl, rfl, rfl⟩

/-- C4 (witness): the extractor facts instantiated on a concrete PSRFITS
file and a concrete filterbank file. -/
theorem c4_witness :
    extOf (base cFitsEnt) ∈ [".fits", ".sf", ".rf"] ∧
    extOf (base cFilEnt) = ".fil" ∧
    (∃ r, parse_data cFitsEnt = some r ∧
      r.telescope = pyStrip cFitsHeader.TELESCOP ∧
      r.observer = pyStrip cFitsHeader.OBSERVER ∧
      r.project_id = pyStrip cFitsHeader.PROJID ∧
      r.source = pyStrip cFitsHeader.SRC_NAME ∧
      r.mode = pyStrip cFitsHeader.OBS_MODE ∧
      r.MJD = (cFitsHeader.STT_IMJD : ℚ) + cFitsHeader.STT_SMJD / 86400) ∧
    (∃ r, parse_data cFilEnt = some r ∧
      r.telescope = pyStrip cFilHeader.telescope ∧
      r.observer = "Unknown" ∧
      r.project_id = "Unknown" ∧
      r.source = pyStrip cFilHeader.source ∧
      r.mode = "Unknown" ∧
      r.MJD = cFilHeader.tstart) :=
  ⟨by decide, by decide,
   c4_extractor_fields.1 cFitsEnt cFitsHeader rfl (by decide),
   c4_extractor_fields.2 cFilEnt cFilHeader rfl (by decide)⟩

/-- C5: on `.fil` the extractor computes
`center_freq = fch1 + foff*(nchans - 1)/2`, and two headers describing the
same band with opposite channel orderings get the same center frequency. -/
theorem c5_center_freq :
    (∀ e h, e.header = HeaderKind.fil h → extOf (base e) = ".fil" →
      ∃ r, parse_data e = some r ∧
        r.center_freq = h.fch1 + h.foff * ((h.nchans : ℚ) - 1) / 2) ∧
    (∀ e1 e2 h1 h2, e1.header = HeaderKind.fil h1 →
      e2.header = HeaderKind.fil h2 →
      extOf (base e1) = ".fil" → extOf (base e2) = ".fil" →
      h2.fch1 = h1.fch1 + h1.foff * ((h1.nchans : ℚ) - 1) →
      h2.foff = -h1.foff → h2.nchans = h1.nchans →
      ∃ r1 r2, parse_data e1 = some r1 ∧ parse_data e2 = some r2 ∧
        r1.center_freq = r2.center_freq) := by
  constructor
  · intro e h hh hext
    exact ⟨_, parse_data_fil e h hh hext, rfl⟩
  · intro e1 e2 h1 h2 hh1 hh2 hx1 hx2 hf hw hn
    refine ⟨_, _, parse_data_fil e1 h1 hh1 hx1, parse_data_fil e2 h2 hh2 hx2, ?_⟩
    dsimp only
    rw [hf, hw, hn]
    ring

/-- C5 (witness): the mirrored-band fact instantiated on the concrete
ascending and descending `.fil` headers (same band edges, widths 2 and
-2, 5 channels; both centers are 1004). -/
theorem c5_witness :
    cFilHeaderDesc.fch1
      = cFilHeaderAsc.fch1 + cFilHeaderAsc.foff * ((cFilHeaderAsc.nchans : ℚ) - 1) ∧
    cFilHeaderDesc.foff = -cFilHeaderAsc.foff ∧
    (∃ r1 r2, parse_data cFilEntAsc = some r1 ∧
      parse_data cFilEntDesc = some r2 ∧
      r1.center_freq = r2.center_freq) := by
  have hf : cFilHeaderDesc.fch1
      = cFilHeaderAsc.fch1 + cFilHeaderAsc.foff * ((cFilHeaderAsc.nchans : ℚ) - 1) := by
    rw [cFilHeaderAsc, cFilHeaderDesc]
    norm_num
  have hw : cFilHeaderDesc.foff = -cFilHeaderAsc.foff := by
    rw [cFilHeaderAsc, cFilHeaderDesc]
  exact ⟨hf, hw,
    c5_center_freq.2 cFilEntAsc cFilEntDesc cFilHeaderAsc cFilHeaderDesc
      rfl rfl (by decide) (by decide) hf hw rfl⟩

/-- C8: symbolic links contribute nothing to the scan: over any candidate
list of links only, the accumulators are untouched and the file count of
a scan from the initial state is 0. -/
theorem c8_symlinks_skipped (es : List FSEntry)
    (h : ∀ e ∈ es, e.isLink = true) :
    (∀ st0, scanFold es st0 = some st0) ∧
    (∃ st, scanFold es initState = some st ∧ st.n_files = 0) := by
  have hgen : ∀ st0, scanFold es st0 = some st0 := by
    induction es with
    | nil => intro st0; rfl
    | cons e t ih =>
      intro st0
      rw [scanFold, scanStep, if_pos (h e (by simp)), Option.some_bind]
      exact ih (fun f hf => h f (List.mem_cons_of_mem e hf)) st0
  exact ⟨hgen, initState, hgen initState, rfl⟩

/-- C8 (witness): a directory containing only a symlink to a valid data
file yields the untouched initial state, hence file count 0. -/
theorem c8_witness :
    (∀ e ∈ [cLinkEnt], e.isLink = true) ∧
    (∃ st, scanFold [cLinkEnt] initState = some st ∧ st.n_files = 0) :=
  ⟨by decide, (c8_symlinks_skipped [cLinkEnt] (by decide)).2⟩

/-- C9 (code bug): argparse's `type=bool` coerces every non-empty string
to `True`, so the `-v` validation can never fire: for every supplied raw
value the resolution succeeds with `bool(value)`, and a full run with
`-v banana` completes and writes its report instead of exiting with a
usage error. -/
theorem c9_verbose_validation_unreachable :
    (∀ s, resolveVerbose (some s) = Except.ok (!(s == ""))) ∧
    resolveVerbose (some "banana") = Except.ok true ∧
    resolveVerbose none = Except.ok false ∧
    (run cArgsBad cWorldBad).2 = none ∧
    (run cArgsBad cWorldBad).1.outFiles.length = 1 := by
  refine ⟨?_, by rfl, by rfl, by decide, by decide⟩
  intro s
  by_cases hs : s == ""
  · simp [resolveVerbose, hs]
  · simp [resolveVerbose, hs]

/-- C2 (counterexample): with the absolute data directory `/d` and the
relative output directory `o`, starting from `/w`, the first run succeeds
and writes `/d/o/README.txt`; running the tool a second time with the
same arguments does **not** fail — the guard looks at `/w/o/README.txt`,
which still does not exist — and the run overwrites the first report. -/
theorem c2_counterexample :
    (run cArgsRel cWorldRel).2 = none ∧
    (run cArgsRel cWorldRel).1.outFiles.map Prod.fst
      = [["d", "o", "README.txt"]] ∧
    (run cArgsRel ((run cArgsRel cWorldRel).1)).2 = none ∧
    (run cArgsRel ((run cArgsRel cWorldRel).1)).1.outFiles.map Prod.fst
      = [["d", "o", "README.txt"]] := by
  refine ⟨by decide, by decide, by decide, by decide⟩

/-- C2 (amended): every aborted run leaves the world untouched (no output
file written or overwritten); and whenever the guard path and the write
path coincide — in particular with an absolute output directory, or a
data directory resolving to the initial working directory — a second
identical invocation after a successful one aborts on the pre-existing
output file, leaving the first report unchanged. -/
theorem c2_abort_no_output :
    (∀ a w, ((run a w).2).isSome = true → (run a w).1 = w) ∧
    (∀ a w w1, run a w = (w1, none) →
      ((∃ cs, outputDirOf a w = PyPath.abs cs) ∨
        resolvePath (dataDirOf a w) w.cwd = w.cwd) →
      run a w1 = (w1, some AbortReason.outputExists)) :=
  ⟨run_abort_world,
   fun a w w1 h hc => run_twice_aborts a w w1 h (guardPath_eq_writePath a w hc)⟩

/-- C2 (witness): a run with a missing data directory aborts and leaves
the world unchanged; and after a successful run with absolute directories
the second identical run aborts on the output collision. -/
theorem c2_witness :
    ((run cArgsMissing cWorldBad).2).isSome = true ∧
    (run cArgsMissing cWorldBad).1 = cWorldBad ∧
    run cArgsAbs cWorldAbs = ((run cArgsAbs cWorldAbs).1, none) ∧
    run cArgsAbs ((run cArgsAbs cWorldAbs).1)
      = ((run cArgsAbs cWorldAbs).1, some AbortReason.outputExists) := by
  have h1 : ((run cArgsMissing cWorldBad).2).isSome = true := by decide
  have h2 : (run cArgsAbs cWorldAbs).2 = none := by decide
  have h3 : run cArgsAbs cWorldAbs = ((run cArgsAbs cWorldAbs).1, none) := by
    rw [← h2]
  exact ⟨h1, c2_abort_no_output.1 cArgsMissing cWorldBad h1, h3,
    c2_abort_no_output.2 cArgsAbs cWorldAbs ((run cArgsAbs cWorldAbs).1) h3
      (Or.inl ⟨["out"], rfl⟩)⟩

/-- C10 (counterexample): with `-d /d -l o` from `/w`, the guard tests
`/w/o/README.txt` (resolved against the initial working directory) while
the run writes `/d/o/README.txt` (the relative output directory is
resolved against the data directory after the chdir); the two paths are
different files. -/
theorem c10_counterexample :
    fileExists cWorldRel (guardPathOf cArgsRel cWorldRel) = false ∧
    (run cArgsRel cWorldRel).2 = none ∧
    (run cArgsRel cWorldRel).1.outFiles.map Prod.fst
      = [["d", "o", "README.txt"]] ∧
    guardPathOf cArgsRel cWorldRel = ["w", "o", "README.txt"] ∧
    writePathOf cArgsRel cWorldRel = ["d", "o", "README.txt"] := by
  refine ⟨by decide, by decide, by decide, by decide, by decide⟩

/-- C10 (amended): when the output directory is absolute, or the data
directory resolves to the initial working directory, the path the
pre-existence guard tests is the path the report is written to, and after
a successful run the written file sits at the guard path. -/
theorem c10_guard_write_agree (a : Args) (w : World)
    (h : (∃ cs, outputDirOf a w = PyPath.abs cs) ∨
         resolvePath (dataDirOf a w) w.cwd = w.cwd) :
    guardPathOf a w = writePathOf a w ∧
    (∀ w1, run a w = (w1, none) →
      w1.outFiles.any (fun f => f.1 == guardPathOf a w) = true) := by
  have heq := guardPath_eq_writePath a w h
  refine ⟨heq, ?_⟩
  intro w1 hr
  obtain ⟨vb, st, -, -, -, -, -, hw1⟩ := run_success a w w1 hr
  subst hw1
  rw [heq, successWorld]
  exact any_setFile _ _ _

/-- C10 (witness): with both directories absolute the guard path equals
the write path, and the successful concrete run leaves the report there. -/
theorem c10_witness :
    guardPathOf cArgsAbs cWorldAbs = writePathOf cArgsAbs cWorldAbs ∧
    ((run cArgsAbs cWorldAbs).1.outFiles.any
      (fun f => f.1 == guardPathOf cArgsAbs cWorldAbs)) = true := by
  have h2 : (run cArgsAbs cWorldAbs).2 = none := by decide
  have h3 : run cArgsAbs cWorldAbs = ((run cArgsAbs cWorldAbs).1, none) := by
    rw [← h2]
  have hmain := c10_guard_write_agree cArgsAbs cWorldAbs (Or.inl ⟨["out"], rfl⟩)
  exact ⟨hmain.1, hmain.2 ((run cArgsAbs cWorldAbs).1) h3⟩

/-- C7: after a successful scan the total size equals the sum of the
byte sizes of the non-symlink candidates divided by the decimal gigabyte
(the per-file divisions distribute over the sum, exactly, in the
rational model of Python's floats), and the printed 2-decimal rendering
agrees. -/
theorem c7_total_size (es : List FSEntry) (st : ScanState)
    (h : scanFold es initState = some st) :
    st.tot_size = (sumBytes es : ℚ) / 10 ^ 9 ∧
    format2dp st.tot_size = format2dp ((sumBytes es : ℚ) / 10 ^ 9) := by
  obtain ⟨rs, hc, hst⟩ := scanFold_some es st h
  have h1 : st.tot_size = (sumBytes es : ℚ) / 10 ^ 9 := by
    rw [hst, foldl_applyRecord_tot_size, collectRecords_sum_size es rs hc]
    simp [initState]
  exact ⟨h1, by rw [h1]⟩

/-- C7 (witness): the two-file scan (2 GB + 0.5 GB) sums to 2500000000
bytes, and the accumulated total is that many bytes over 10^9. -/
theorem c7_witness :
    sumBytes cScanEntries = 2500000000 ∧
    (∃ st, scanFold cScanEntries initState = some st ∧
      st.tot_size = (sumBytes cScanEntries : ℚ) / 10 ^ 9) := by
  have hc : (collectRecords cScanEntries).isSome = true :=
    (collectRecords_isSome cScanEntries).mpr (by decide)
  obtain ⟨rs, hrs⟩ := Option.isSome_iff_exists.mp hc
  have hsf : scanFold cScanEntries initState
      = some (rs.foldl applyRecord initState) := by
    rw [scanFold_eq, hrs]
    rfl
  exact ⟨by decide, rs.foldl applyRecord initState, hsf,
    (c7_total_size cScanEntries (rs.foldl applyRecord initState) hsf).1⟩

/-- C3: the report's lines come in the fixed order header, owner,
generator, timestamps, file count, total size, then the seven
comma-and-space-joined lists, then an empty line and a bare `Notes:`
line; each printed list is lexicographically sorted and holds the
distinct collected values (center frequencies are sorted by their string
rendering, not numerically); and the collected MJDs influence no line of
the report. -/
theorem c3_report_format (es : List FSEntry) (st : ScanState)
    (dd pf ow gen t1 t2 : String)
    (h : scanFold es initState = some st) :
    reportLines dd pf ow gen t1 t2 st =
      [ "README file for " ++ dd ++ " generated by " ++ pf ++ "."
      , "Owner: " ++ ow
      , "Generated by: " ++ gen
      , "Started at " ++ t1 ++ "; completed at " ++ t2 ++ "."
      , "Number of files: " ++ toString st.n_files
      , "Total size (GB): " ++ format2dp st.tot_size
      , "File types: " ++ joinCS (pySort st.exts)
      , "Telescope: " ++ joinCS (pySort st.telescopes)
      , "Observers: " ++ joinCS (pySort st.observers)
      , "Project IDs: " ++ joinCS (pySort st.project_ids)
      , "Sources: " ++ joinCS (pySort st.sources)
      , "Modes: " ++ joinCS (pySort st.modes)
      , "Center frequencies (MHz): " ++ joinCS (pySort (st.center_freqs.map pyStr))
      , ""
      , "Notes:" ] ∧
    (List.Sorted (fun x y : String => x ≤ y) (pySort st.exts) ∧
      (pySort st.exts).Nodup ∧ (pySort st.exts).Perm st.exts) ∧
    (List.Sorted (fun x y : String => x ≤ y) (pySort st.telescopes) ∧
      (pySort st.telescopes).Nodup ∧ (pySort st.telescopes).Perm st.telescopes) ∧
    (List.Sorted (fun x y : String => x ≤ y) (pySort st.observers) ∧
      (pySort st.observers).Nodup ∧ (pySort st.observers).Perm st.observers) ∧
    (List.Sorted (fun x y : String => x ≤ y) (pySort st.project_ids) ∧
      (pySort st.project_ids).Nodup ∧ (pySort st.project_ids).Perm st.project_ids) ∧
    (List.Sorted (fun x y : String => x ≤ y) (pySort st.sources) ∧
      (pySort st.sources).Nodup ∧ (pySort st.sources).Perm st.sources) ∧
    (List.Sorted (fun x y : String => x ≤ y) (pySort st.modes) ∧
      (pySort st.modes).Nodup ∧ (pySort st.modes).Perm st.modes) ∧
    (List.Sorted (fun x y : String => x ≤ y) (pySort (st.center_freqs.map pyStr)) ∧
      (pySort (st.center_freqs.map pyStr)).Perm (st.center_freqs.map pyStr) ∧
      st.center_freqs.Nodup) ∧
    (∀ m, reportLines dd pf ow gen t1 t2 { st with MJDs := m }
      = reportLines dd pf ow gen t1 t2 st) := by
  obtain ⟨rs, hc, hst⟩ := scanFold_some es st h
  have hx1 : st.exts = (rs.map Record.ext).foldl addDistinct [] := by
    rw [hst]
    exact foldl_applyRecord_list (fun s => s.exts) Record.ext
      (fun _ _ => rfl) rs initState
  have hx2 : st.telescopes = (rs.map Record.telescope).foldl addDistinct [] := by
    rw [hst]
    exact foldl_applyRecord_list (fun s => s.telescopes) Record.telescope
      (fun _ _ => rfl) rs initState
  have hx3 : st.observers = (rs.map Record.observer).foldl addDistinct [] := by
    rw [hst]
    exact foldl_applyRecord_list (fun s => s.observers) Record.observer
      (fun _ _ => rfl) rs initState
  have hx4 : st.project_ids = (rs.map Record.project_id).foldl addDistinct [] := by
    rw [hst]
    exact foldl_applyRecord_list (fun s => s.project_ids) Record.project_id
      (fun _ _ => rfl) rs initState
  have hx5 : st.sources = (rs.map Record.source).foldl addDistinct [] := by
    rw [hst]
    exact foldl_applyRecord_list (fun s => s.sources) Record.source
      (fun _ _ => rfl) rs initState
  have hx6 : st.modes = (rs.map Record.mode).foldl addDistinct [] := by
    rw [hst]
    exact foldl_applyRecord_list (fun s => s.modes) Record.mode
      (fun _ _ => rfl) rs initState
  have hx7 : st.center_freqs = (rs.map Record.center_freq).foldl addDistinct [] := by
    rw [hst]
    exact foldl_applyRecord_list (fun s => s.center_freqs) Record.center_freq
      (fun _ _ => rfl) rs initState
  have nd : ∀ {α} [DecidableEq α] (xs : List α),
      (xs.foldl addDistinct []).Nodup :=
    fun xs => nodup_foldl_addDistinct xs [] List.nodup_nil
  refine ⟨rfl,
    ⟨pySort_sorted _, ((pySort_perm _).nodup_iff).mpr (hx1 ▸ nd _), pySort_perm _⟩,
    ⟨pySort_sorted _, ((pySort_perm _).nodup_iff).mpr (hx2 ▸ nd _), pySort_perm _⟩,
    ⟨pySort_sorted _, ((pySort_perm _).nodup_iff).mpr (hx3 ▸ nd _), pySort_perm _⟩,
    ⟨pySort_sorted _, ((pySort_perm _).nodup_iff).mpr (hx4 ▸ nd _), pySort_perm _⟩,
    ⟨pySort_sorted _, ((pySort_perm _).nodup_iff).mpr (hx5 ▸ nd _), pySort_perm _⟩,
    ⟨pySort_sorted _, ((pySort_perm _).nodup_iff).mpr (hx6 ▸ nd _), pySort_perm _⟩,
    ⟨pySort_sorted _, pySort_perm _, hx7 ▸ nd _⟩,
    fun m => rfl⟩

/-- C3 (witness): the two-file scan's report ends with an empty line and
`Notes:`, has 15 lines, and its telescope line is the joined sorted
distinct telescopes. -/
theorem c3_witness :
    ∃ st, scanFold cScanEntries initState = some st ∧
      (reportLines "/data" "make_readme.py" "own" "gen" "t1" "t2" st).length = 15 ∧
      (reportLines "/data" "make_readme.py" "own" "gen" "t1" "t2" st).getLastD ""
        = "Notes:" ∧
      (pySort st.telescopes).Perm st.telescopes ∧
      (∀ m, reportLines "/data" "make_readme.py" "own" "gen" "t1" "t2"
        { st with MJDs := m }
        = reportLines "/data" "make_readme.py" "own" "gen" "t1" "t2" st) := by
  have hco : (collectRecords cScanEntries).isSome = true :=
    (collectRecords_isSome cScanEntries).mpr (by decide)
  obtain ⟨rs, hrs⟩ := Option.isSome_iff_exists.mp hco
  have hsf : scanFold cScanEntries initState
      = some (rs.foldl applyRecord initState) := by
    rw [scanFold_eq, hrs]
    rfl
  obtain ⟨hlines, -, htel, hrest⟩ :=
    c3_report_format cScanEntries (rs.foldl applyRecord initState)
      "/data" "make_readme.py" "own" "gen" "t1" "t2" hsf
  refine ⟨rs.foldl applyRecord initState, hsf, ?_, ?_, htel.2.2, ?_⟩
  · rw [hlines]
    rfl
  · rw [hlines]
    rfl
  · obtain ⟨-, -, -, -, -, hmjd⟩ := hrest
    exact hmjd

/-- C6: after a successful scan every accumulator holds each value at
most once; processing the candidates in any other order gives the same
file count and total size and the same accumulators up to permutation,
with identical sorted telescope output; and the sorted telescope list has
exactly as many entries as there are distinct telescope names among the
parsed records, each appearing once, in lexicographic order. -/
theorem c6_accumulators (es : List FSEntry) (rs : List Record)
    (st : ScanState) (h : scanFold es initState = some st)
    (hc : collectRecords es = some rs) :
    (st.exts.Nodup ∧ st.telescopes.Nodup ∧ st.observers.Nodup ∧
      st.project_ids.Nodup ∧ st.sources.Nodup ∧ st.modes.Nodup ∧
      st.MJDs.Nodup ∧ st.center_freqs.Nodup) ∧
    (∀ es2, es2.Perm es → ∃ st2, scanFold es2 initState = some st2 ∧
      st2.n_files = st.n_files ∧ st2.tot_size = st.tot_size ∧
      st2.exts.Perm st.exts ∧ st2.telescopes.Perm st.telescopes ∧
      st2.observers.Perm st.observers ∧ st2.project_ids.Perm st.project_ids ∧
      st2.sources.Perm st.sources ∧ st2.modes.Perm st.modes ∧
      st2.MJDs.Perm st.MJDs ∧ st2.center_freqs.Perm st.center_freqs ∧
      pySort st2.telescopes = pySort st.telescopes) ∧
    ((pySort st.telescopes).length = (rs.map Record.telescope).dedup.length ∧
      (pySort st.telescopes).Nodup ∧
      List.Sorted (fun x y : String => x ≤ y) (pySort st.telescopes) ∧
      (∀ x, x ∈ pySort st.telescopes ↔ x ∈ rs.map Record.telescope)) := by
  obtain ⟨rs', hc', hst⟩ := scanFold_some es st h
  rw [hc] at hc'
  cases hc'
  have hfield : ∀ {α} [DecidableEq α] (get : ScanState → List α)
      (proj : Record → α),
      (∀ s r, get (applyRecord s r) = addDistinct (get s) (proj r)) →
      get initState = [] →
      ∀ (rs0 : List Record),
      get (rs0.foldl applyRecord initState)
        = (rs0.map proj).foldl addDistinct [] := by
    intro α _ get proj hstep hinit rs0
    rw [foldl_applyRecord_list get proj hstep rs0 initState, hinit]
  have hT : st.telescopes = (rs.map Record.telescope).foldl addDistinct [] := by
    rw [hst]
    exact hfield (fun s => s.telescopes) Record.telescope (fun _ _ => rfl) rfl rs
  refine ⟨?_, ?_, ?_⟩
  · rw [hst]
    exact ⟨(hfield (fun s => s.exts) Record.ext (fun _ _ => rfl) rfl rs) ▸
        nodup_foldl_addDistinct _ [] List.nodup_nil,
      (hfield (fun s => s.telescopes) Record.telescope (fun _ _ => rfl) rfl rs) ▸
        nodup_foldl_addDistinct _ [] List.nodup_nil,
      (hfield (fun s => s.observers) Record.observer (fun _ _ => rfl) rfl rs) ▸
        nodup_foldl_addDistinct _ [] List.nodup_nil,
      (hfield (fun s => s.project_ids) Record.project_id (fun _ _ => rfl) rfl rs) ▸
        nodup_foldl_addDistinct _ [] List.nodup_nil,
      (hfield (fun s => s.sources) Record.source (fun _ _ => rfl) rfl rs) ▸
        nodup_foldl_addDistinct _ [] List.nodup_nil,
      (hfield (fun s => s.modes) Record.mode (fun _ _ => rfl) rfl rs) ▸
        nodup_foldl_addDistinct _ [] List.nodup_nil,
      (hfield (fun s => s.MJDs) Record.MJD (fun _ _ => rfl) rfl rs) ▸
        nodup_foldl_addDistinct _ [] List.nodup_nil,
      (hfield (fun s => s.center_freqs) Record.center_freq (fun _ _ => rfl) rfl rs) ▸
        nodup_foldl_addDistinct _ [] List.nodup_nil⟩
  · intro es2 hp
    obtain ⟨rs2, hc2, hrs⟩ := collectRecords_perm es es2 rs hp.symm hc
    refine ⟨rs2.foldl applyRecord initState, ?_, ?_, ?_, ?_⟩
    · rw [scanFold_eq, hc2]
      rfl
    · rw [foldl_applyRecord_n_files, hst, foldl_applyRecord_n_files,
        hrs.length_eq]
    · rw [foldl_applyRecord_tot_size, hst, foldl_applyRecord_tot_size,
        (hrs.map Record.size).sum_eq]
    · have hone : ∀ {α} [DecidableEq α] (get : ScanState → List α)
          (proj : Record → α),
          (∀ s r, get (applyRecord s r) = addDistinct (get s) (proj r)) →
          get initState = [] →
          (get (rs2.foldl applyRecord initState)).Perm (get st) := by
        intro α _ get proj hstep hinit
        rw [hst, hfield get proj hstep hinit rs2, hfield get proj hstep hinit rs]
        exact perm_foldl_addDistinct _ _ ((hrs.map proj).symm)
      refine ⟨hone (fun s => s.exts) Record.ext (fun _ _ => rfl) rfl,
        hone (fun s => s.telescopes) Record.telescope (fun _ _ => rfl) rfl,
        hone (fun s => s.observers) Record.observer (fun _ _ => rfl) rfl,
        hone (fun s => s.project_ids) Record.project_id (fun _ _ => rfl) rfl,
        hone (fun s => s.sources) Record.source (fun _ _ => rfl) rfl,
        hone (fun s => s.modes) Record.mode (fun _ _ => rfl) rfl,
        hone (fun s => s.MJDs) Record.MJD (fun _ _ => rfl) rfl,
        hone (fun s => s.center_freqs) Record.center_freq (fun _ _ => rfl) rfl,
        pySort_eq_of_perm _ _
          (hone (fun s => s.telescopes) Record.telescope (fun _ _ => rfl) rfl)⟩
  · refine ⟨?_, ?_, pySort_sorted _, ?_⟩
    · rw [(pySort_perm _).length_eq, hT, length_foldl_addDistinct]
    · exact ((pySort_perm _).nodup_iff).mpr
        (hT ▸ nodup_foldl_addDistinct _ [] List.nodup_nil)
    · intro x
      rw [(pySort_perm _).mem_iff, hT, mem_foldl_addDistinct]
      simp

/-- C6 (witness): the two-file scan has two records with two distinct
telescope names, and the sorted telescope list has exactly two entries. -/
theorem c6_witness :
    ∃ rs st, collectRecords cScanEntries = some rs ∧
      scanFold cScanEntries initState = some st ∧
      st.telescopes.Nodup ∧
      (pySort st.telescopes).length = (rs.map Record.telescope).dedup.length ∧
      List.Sorted (fun x y : String => x ≤ y) (pySort st.telescopes) := by
  have hco : (collectRecords cScanEntries).isSome = true :=
    (collectRecords_isSome cScanEntries).mpr (by decide)
  obtain ⟨rs, hrs⟩ := Option.isSome_iff_exists.mp hco
  have hsf : scanFold cScanEntries initState
      = some (rs.foldl applyRecord initState) := by
    rw [scanFold_eq, hrs]
    rfl
  obtain ⟨hnodup, -, hcount⟩ :=
    c6_accumulators cScanEntries rs (rs.foldl applyRecord initState) hsf hrs
  exact ⟨rs, rs.foldl applyRecord initState, hrs, hsf, hnodup.2.1,
    hcount.1, hcount.2.2.1⟩

end MakeReadme
